import Mathlib

/-!
Verification of the `status` subcommand of taskcluster-cli
(`src/cmds/status/status.go`), as a shallow embedding in Lean 4.

Modelling conventions:
* Go `(value, err)` multi-returns become pairs / result structures with an
  `Option String` error component (`none` = Go `nil` error); functions whose
  result is only consulted through an error check become `Except String α`.
* `time.Time` / `time.Duration` become `Int` (nanoseconds, as in Go);
  `time.Since(t)` becomes `now - t` with `now` passed explicitly.
* The network is an oracle `http : String → Except String (Nat × String)`
  giving per-URL either a transport error or a status code and a body, and
  per-type JSON decoders `String → Except String α`.  Every network-touching
  function also returns the list of URLs it fetched, in order (its trace).
* The cache file is a single-path file system state `CacheFS`; JSON
  marshalling of a `CachedURLs` record round-trips (for this record type -
  a timestamp and a string-to-string map - Go `json.MarshalIndent` followed
  by `json.Unmarshal` is the identity), so the file content is modelled as
  the record itself, with distinguished unreadable/corrupt states.
  `json.MarshalIndent` on this record type cannot fail, so `Cache` fails
  exactly when the write fails.
* Go maps (`map[string]string`) become association lists with unique keys,
  in insertion order; map iteration order in Go is unspecified, the model
  fixes it to list order.
* `resp.Body.Close()` errors and the `configdir` path discovery are resource
  management outside the model.
-/

/-- Go `map[string]string`, keys unique, as an association list
(`PingURLs` maps a service name to the http ping endpoint of that service). -/
abbrev PingURLs := List (String × String)

/-- Go map assignment `m[k] = v`: replace the binding of `k` if present,
otherwise append a new one. -/
def mapSet : PingURLs → String → String → PingURLs
  | [], k, v => [(k, v)]
  | (k0, v0) :: rest, k, v =>
    if k0 == k then (k, v) :: rest else (k0, v0) :: mapSet rest k v

/-- Go map read `m[k]`: the bound value, or the zero value `""` if absent. -/
def mapGet : PingURLs → String → String
  | [], _ => ""
  | (k0, v0) :: rest, k => if k0 == k then v0 else mapGet rest k

/-- The key set of a `PingURLs` map, in insertion order (Go `for k := range m`
iterates in unspecified order; the model fixes list order). -/
def keysOf (m : PingURLs) : List String := m.map Prod.fst

/-- Struct `CachedURLs` defines the data format of the cache file
(`lastUpdated` timestamp plus the ping URL map). -/
structure CachedURLs where
  lastUpdated : Int
  pingURLs : PingURLs
deriving Repr, DecidableEq

/-- Struct `PingResponse`: data format of the http response from a ping endpoint. -/
structure PingResponse where
  alive : Bool
  uptime : Int
deriving Repr, DecidableEq

/-- Struct `APIEntry`: name and url path of one endpoint of a taskcluster api. -/
structure APIEntry where
  name : String
  route : String
deriving Repr, DecidableEq

/-- Struct `API`: the subset of a taskcluster api definition needed to determine the
service name and ping endpoint. -/
structure API where
  baseURL : String
  entries : List APIEntry
deriving Repr, DecidableEq

/-- Go `time.Hour` in nanoseconds. -/
def hour : Int := 3600000000000

/-- The fixed manifest URL scraped for service references. -/
def manifestURL : String := "https://references.taskcluster.net/manifest.json"

/-- Method `Expired` (on `*CachedURLs`): `time.Since(cachedURLs.LastUpdated) > d`,
with `time.Since t = now - t`. -/
def CachedURLs.Expired (cachedURLs : CachedURLs) (now d : Int) : Bool :=
  now - cachedURLs.lastUpdated > d

/-- Drop everything up to and including the first occurrence of `pat`;
`none` when `pat` does not occur (first step of Go `url.Parse`: the model
recognises only `scheme://authority/...` URLs, which is all the code meets). -/
def dropAfterPattern (pat : List Char) : List Char → Option (List Char)
  | [] => none
  | c :: rest =>
    if (c :: rest).take pat.length == pat then some ((c :: rest).drop pat.length)
    else dropAfterPattern pat rest

/-- The characters after the last occurrence of `c` (the whole list when `c`
does not occur): strips the `userinfo@` part of a URL authority. -/
def afterLast (c : Char) (l : List Char) : List Char :=
  (l.reverse.takeWhile (fun x => x != c)).reverse

/-- Model of Go `url.Parse(rawURL)` followed by `u.Hostname()`: the authority
component (after `scheme://`, before the first `/`), with userinfo and port
stripped.  Go `url.Parse` fails only on malformed control/escape characters,
so the model treats parsing as total; a URL without `://` has no host. -/
def hostnameOf (rawURL : String) : String :=
  match dropAfterPattern "://".data rawURL.data with
  | none => ""
  | some rest =>
    let authority := rest.takeWhile (fun x => x != '/')
    let hostport := afterLast '@' authority
    String.mk (hostport.takeWhile (fun x => x != ':'))

/-- Go `strings.SplitN(hostname, ".", 2)[0]` applied to the hostname of
`baseURL`: the substring of the hostname before the first `.`. -/
def serviceOf (baseURL : String) : String :=
  String.mk ((hostnameOf baseURL).data.takeWhile (fun x => x != '.'))

/-- The external world: the HTTP oracle (per URL, a transport error or a
status code and response body) and the JSON decoders for the three payload
types the code decodes into. -/
structure World where
  http : String → Except String (Nat × String)
  decodeManifest : String → Except String (List (String × String))
  decodeAPI : String → Except String API
  decodePing : String → Except String PingResponse

/-- Function `objectFromJSONURL`: `http.Get` the URL, fail on a transport error, fail
on a non-200 status code, otherwise JSON-decode the body into the target
type.  Also returns the trace of URLs fetched (always exactly the one URL:
`http.Get` issues the request even when it ends in an error). -/
def objectFromJSONURL {α : Type} (http : String → Except String (Nat × String))
    (decode : String → Except String α) (urlReturningJSON : String) :
    Except String α × List String :=
  match http urlReturningJSON with
  | .error e => (.error e, [urlReturningJSON])
  | .ok (statusCode, body) =>
    if statusCode != 200 then
      (.error ("Bad (!= 200) status code " ++ toString statusCode ++ " from "
        ++ urlReturningJSON), [urlReturningJSON])
    else (decode body, [urlReturningJSON])

/-- Result of `ScrapePingURLs`: the (possibly partially filled) named return
value `pingURLs`, the error, and the trace of URLs fetched. -/
structure ScrapeResult where
  pingURLs : PingURLs
  err : Option String
  trace : List String
deriving Repr, DecidableEq

/-- The `for _, apiURL := range allAPIs` loop body of `ScrapePingURLs`:
fetch each service's API reference; abort with the error on a fetch/decode
failure; scan its entries for the first one named "ping" (none: the service
is silently skipped); on a match, bind the service name derived from the
hostname of `baseUrl` to `baseUrl + route`. -/
def scrapeLoop (w : World) : List (String × String) → PingURLs →
    PingURLs × Option String × List String
  | [], acc => (acc, none, [])
  | (_, apiURL) :: rest, acc =>
    match objectFromJSONURL w.http w.decodeAPI apiURL with
    | (.error e, tr) => (acc, some e, tr)
    | (.ok reference, tr) =>
      match reference.entries.find? (fun entry => entry.name == "ping") with
      | none =>
        let r := scrapeLoop w rest acc
        (r.1, r.2.1, tr ++ r.2.2)
      | some entry =>
        let r := scrapeLoop w rest
          (mapSet acc (serviceOf reference.baseURL) (reference.baseURL ++ entry.route))
        (r.1, r.2.1, tr ++ r.2.2)

/-- Function `ScrapePingURLs`: fetch and decode the manifest (service name to
API-reference URL), then walk the references collecting ping URLs.  On a
manifest failure the named return `pingURLs` is still Go `nil` ( `[]` ). -/
def ScrapePingURLs (w : World) (murl : String) : ScrapeResult :=
  match objectFromJSONURL w.http w.decodeManifest murl with
  | (.error e, tr) => ⟨[], some e, tr⟩
  | (.ok allAPIs, tr) =>
    let r := scrapeLoop w allAPIs []
    ⟨r.1, r.2.1, tr ++ r.2.2⟩

/-- The state of the cache file: absent, present but unreadable
(`cache.ReadFile` fails), present but corrupt (`json.Unmarshal` fails), or
holding a well-formed record. -/
inductive FileState
  | absent
  | unreadable
  | corrupt
  | stored (cachedURLs : CachedURLs)
deriving Repr, DecidableEq

/-- The cache folder: the state of the one cache file the code uses, and
whether `cache.WriteFile` on it succeeds. -/
structure CacheFS where
  state : FileState
  writable : Bool
deriving Repr, DecidableEq

/-- Go `cache.Exists(pingURLsCachePath)`. -/
def cacheExists (fs : CacheFS) : Bool :=
  match fs.state with
  | .absent => false
  | _ => true

/-- Function `ReadCachedURLsFile`: read the cache file and unmarshal it. -/
def ReadCachedURLsFile (fs : CacheFS) : Except String CachedURLs :=
  match fs.state with
  | .absent => .error "file does not exist"
  | .unreadable => .error "read error"
  | .corrupt => .error "unmarshal error"
  | .stored cachedURLs => .ok cachedURLs

/-- Result of `PingURLs.Cache`: the record built (built before marshalling,
so returned even when writing fails), the error, and the file system after. -/
structure CacheWriteResult where
  cachedURLs : CachedURLs
  err : Option String
  fs : CacheFS
deriving Repr, DecidableEq

/-- Method `Cache` (on `PingURLs`): build a record stamped with the current time,
marshal it (infallible for this record type) and write it to the cache file,
replacing any previous content. -/
def PingURLs.Cache (p : PingURLs) (now : Int) (fs : CacheFS) : CacheWriteResult :=
  let cachedURLs : CachedURLs := { lastUpdated := now, pingURLs := p }
  if fs.writable then
    ⟨cachedURLs, none, { fs with state := .stored cachedURLs }⟩
  else
    ⟨cachedURLs, some "write error", fs⟩

/-- Result of `RefreshCache` / `NewPingURLs`: the returned map and error,
the file system after, and the trace of URLs fetched. -/
structure RefreshResult where
  pingURLs : PingURLs
  err : Option String
  fs : CacheFS
  trace : List String
deriving Repr, DecidableEq

/-- Function `RefreshCache`: scrape the manifest for ping URLs and cache the result;
`return cachedURLs.PingURLs, err` returns the fresh map together with any
caching error. -/
def RefreshCache (w : World) (murl : String) (fs : CacheFS) (now : Int) :
    RefreshResult :=
  let s := ScrapePingURLs w murl
  match s.err with
  | some e => ⟨s.pingURLs, some e, fs, s.trace⟩
  | none =>
    let c := PingURLs.Cache s.pingURLs now fs
    ⟨c.cachedURLs.pingURLs, c.err, c.fs, s.trace⟩

/-- Function `NewPingURLs`: refresh when the cache file is absent; otherwise read it
(propagating a read/decode failure), refresh when the record is older than
24 hours, and otherwise return the cached map. -/
def NewPingURLs (w : World) (fs : CacheFS) (now : Int) : RefreshResult :=
  if !cacheExists fs then RefreshCache w manifestURL fs now
  else
    match ReadCachedURLsFile fs with
    | .error e => ⟨[], some e, fs, []⟩
    | .ok cachedURLs =>
      if cachedURLs.Expired now (hour * 24) then RefreshCache w manifestURL fs now
      else ⟨cachedURLs.pingURLs, none, fs, []⟩

/-- Result of one ping (`respbody`) or of the ping loop (`status`): the
error, the lines printed, and the trace of URLs fetched. -/
structure PingRunResult where
  err : Option String
  output : List String
  trace : List String
deriving Repr, DecidableEq

/-- Function `respbody`: fetch and decode the service's ping URL; on success print
the service name and a green "Alive" line when `alive` is true, and nothing
when it is false. -/
def respbody (w : World) (pingURLs : PingURLs) (service : String) : PingRunResult :=
  match objectFromJSONURL w.http w.decodePing (mapGet pingURLs service) with
  | (.error e, tr) => ⟨some e, [], tr⟩
  | (.ok servstat, tr) =>
    if servstat.alive then
      ⟨none, ["      " ++ service ++ "\n", "      Alive\n"], tr⟩
    else ⟨none, [], tr⟩

/-- The `for _, service := range args` loop of `status`: ping each service
in order; a `respbody` error panics, stopping the loop. -/
def statusLoop (w : World) (pingURLs : PingURLs) : List String → PingRunResult
  | [] => ⟨none, [], []⟩
  | service :: rest =>
    let r := respbody w pingURLs service
    match r.err with
    | some e => ⟨some e, r.output, r.trace⟩
    | none =>
      let r2 := statusLoop w pingURLs rest
      ⟨r2.err, r.output ++ r2.output, r.trace ++ r2.trace⟩

/-- Function `status` (the cobra `RunE`): with no arguments, substitute the full list
of valid service names, then ping each requested service in order. -/
def status (w : World) (pingURLs : PingURLs) (validArgs : List String)
    (args : List String) : PingRunResult :=
  let args := if args.length == 0 then validArgs else args
  statusLoop w pingURLs args

/-- Function `validateArgs` (via `preRun`, the cobra `PreRunE`): scan the arguments in
order; any argument matching no valid argument fails the whole command. -/
def validateArgs (validArgs : List String) : List String → Option String
  | [] => none
  | arg :: rest =>
    if validArgs.contains arg then validateArgs validArgs rest
    else some "invalid argument(s) passed"

/-- One whole invocation of the program on the `status` subcommand: package
`init` (obtain the ping URLs via `NewPingURLs`, panicking on error, and
derive `validArgs` from the map's keys), then cobra runs `PreRunE`
(`validateArgs`) and, only if it succeeds, `RunE` (`status`). -/
def runStatusCommand (w : World) (fs : CacheFS) (now : Int) (args : List String) :
    PingRunResult :=
  let init := NewPingURLs w fs now
  match init.err with
  | some e => ⟨some e, [], init.trace⟩
  | none =>
    let validArgs := keysOf init.pingURLs
    match validateArgs validArgs args with
    | some e => ⟨some e, [], init.trace⟩
    | none =>
      let r := status w init.pingURLs validArgs args
      ⟨r.err, r.output, init.trace ++ r.trace⟩

/-- A decoder that rejects every body (used for payloads a test world never
decodes). -/
def rejectDecode {α : Type} : String → Except String α := fun _ => .error "decode error"

/-- Test world for the specification's worked example: the manifest maps
"queue" to a reference URL whose API description has base url
`https://queue.taskcluster.net` and a "ping" entry with route `/ping`; the
ping endpoint answers alive. -/
def wSpec : World where
  http := fun u =>
    if u == manifestURL then .ok (200, "manifest.body")
    else if u == "https://queue.example.com/ref" then .ok (200, "queue.ref.body")
    else if u == "https://queue.taskcluster.net/ping" then .ok (200, "ping.alive.body")
    else .error "no such url"
  decodeManifest := fun b =>
    if b == "manifest.body" then .ok [("queue", "https://queue.example.com/ref")]
    else .error "decode error"
  decodeAPI := fun b =>
    if b == "queue.ref.body" then
      .ok ⟨"https://queue.taskcluster.net", [⟨"ping", "/ping"⟩]⟩
    else .error "decode error"
  decodePing := fun b =>
    if b == "ping.alive.body" then .ok ⟨true, 12⟩ else .error "decode error"

/-- Test world where the manifest decodes to two services and the second
API-reference fetch fails with a transport error. -/
def wFailB : World where
  http := fun u =>
    if u == manifestURL then .ok (200, "manifest.body")
    else if u == "urlA" then .ok (200, "ref.a.body")
    else .error "transport error"
  decodeManifest := fun b =>
    if b == "manifest.body" then .ok [("a", "urlA"), ("b", "urlB")]
    else .error "decode error"
  decodeAPI := fun b =>
    if b == "ref.a.body" then
      .ok ⟨"https://auth.taskcluster.net", [⟨"ping", "/ping"⟩]⟩
    else .error "decode error"
  decodePing := rejectDecode

/-- Test world where the first service's API description has no "ping" entry
and the second one does. -/
def wNoPingFirst : World where
  http := fun u =>
    if u == manifestURL then .ok (200, "manifest.body")
    else if u == "urlA" then .ok (200, "ref.a.body")
    else if u == "urlB" then .ok (200, "ref.b.body")
    else .error "no such url"
  decodeManifest := fun b =>
    if b == "manifest.body" then .ok [("a", "urlA"), ("b", "urlB")]
    else .error "decode error"
  decodeAPI := fun b =>
    if b == "ref.a.body" then
      .ok ⟨"https://auth.taskcluster.net", [⟨"createClient", "/clients"⟩]⟩
    else if b == "ref.b.body" then
      .ok ⟨"https://secrets.taskcluster.net", [⟨"ping", "/ping"⟩]⟩
    else .error "decode error"
  decodePing := rejectDecode

/-- Test world for pinging: "queue" answers 200 with an alive report,
"auth" answers 200 with a not-alive report, "index" answers HTTP 500. -/
def wPing : World where
  http := fun u =>
    if u == "https://queue.taskcluster.net/ping" then .ok (200, "ping.alive.body")
    else if u == "https://auth.taskcluster.net/ping" then .ok (200, "ping.dead.body")
    else if u == "https://index.taskcluster.net/ping" then .ok (500, "oops")
    else .error "no such url"
  decodeManifest := rejectDecode
  decodeAPI := rejectDecode
  decodePing := fun b =>
    if b == "ping.alive.body" then .ok ⟨true, 12⟩
    else if b == "ping.dead.body" then .ok ⟨false, 0⟩
    else .error "decode error"

/-- The ping URL map used with `wPing`. -/
def pingMap : PingURLs :=
  [("queue", "https://queue.taskcluster.net/ping"),
   ("auth", "https://auth.taskcluster.net/ping"),
   ("index", "https://index.taskcluster.net/ping")]

/-- Test world whose every HTTP request fails (no network). -/
def wNoNet : World where
  http := fun _ => .error "no network"
  decodeManifest := rejectDecode
  decodeAPI := rejectDecode
  decodePing := rejectDecode

/-- One call of `objectFromJSONURL` fetches exactly its URL. -/
lemma objectFromJSONURL_trace {α : Type} (http : String → Except String (Nat × String))
    (decode : String → Except String α) (url : String) :
    (objectFromJSONURL http decode url).2 = [url] := by
  unfold objectFromJSONURL
  cases http url with
  | error e => rfl
  | ok v =>
    obtain ⟨code, body⟩ := v
    by_cases h : code != 200 <;> simp [h]

/-- A call of `objectFromJSONURL` is its first component paired with its URL. -/
lemma objectFromJSONURL_eta {α : Type} (http : String → Except String (Nat × String))
    (decode : String → Except String α) (url : String) :
    objectFromJSONURL http decode url =
      ((objectFromJSONURL http decode url).1, [url]) := by
  rw [← objectFromJSONURL_trace http decode url]

/-- C1: `Expired` with the fixed 24-hour threshold is true exactly when the
record's age `now - lastUpdated` strictly exceeds 24 hours; an age of
exactly 24 hours is not stale. -/
theorem spec_C1 (c : CachedURLs) (now : Int) :
    (c.Expired now (hour * 24) = true ↔ now - c.lastUpdated > hour * 24) ∧
    (now - c.lastUpdated = hour * 24 → c.Expired now (hour * 24) = false) := by
  constructor
  · simp [CachedURLs.Expired]
  · intro h
    simp [CachedURLs.Expired, h]

/-- Witness for C1: a record last updated at time 0, read at time exactly
24 hours, is not expired. -/
theorem spec_C1_witness :
    CachedURLs.Expired ⟨0, []⟩ (hour * 24) (hour * 24) = false :=
  (spec_C1 ⟨0, []⟩ (hour * 24)).2 (by decide)

/-- C4: when persisting succeeds, reading the cache file back yields exactly
the record just written, whose map is the persisted map unchanged (same
key-value list, hence same key set and values). -/
theorem spec_C4 (p : PingURLs) (now : Int) (fs : CacheFS)
    (h : (PingURLs.Cache p now fs).err = none) :
    ReadCachedURLsFile (PingURLs.Cache p now fs).fs =
      .ok (PingURLs.Cache p now fs).cachedURLs ∧
    (PingURLs.Cache p now fs).cachedURLs.pingURLs = p := by
  by_cases hw : fs.writable
  · simp [PingURLs.Cache, hw, ReadCachedURLsFile]
  · simp [PingURLs.Cache, hw] at h

/-- Witness for C4: persisting the worked example's map into an empty,
writable cache and reading it back returns it unchanged. -/
theorem spec_C4_witness :
    ReadCachedURLsFile
      (PingURLs.Cache [("queue", "https://queue.taskcluster.net/ping")] 5
        ⟨FileState.absent, true⟩).fs =
      .ok (PingURLs.Cache [("queue", "https://queue.taskcluster.net/ping")] 5
        ⟨FileState.absent, true⟩).cachedURLs ∧
    (PingURLs.Cache [("queue", "https://queue.taskcluster.net/ping")] 5
        ⟨FileState.absent, true⟩).cachedURLs.pingURLs =
      [("queue", "https://queue.taskcluster.net/ping")] :=
  spec_C4 [("queue", "https://queue.taskcluster.net/ping")] 5
    ⟨FileState.absent, true⟩ (by decide)

/-- If the reference walk contains an entry whose fetch or decode fails,
the walk reports an error (whatever the accumulator). -/
lemma scrapeLoop_err_of_fail (w : World) (l : List (String × String)) :
    ∀ acc : PingURLs,
    (∃ pr ∈ l, ∃ e, (objectFromJSONURL w.http w.decodeAPI pr.2).1 = .error e) →
    (scrapeLoop w l acc).2.1 ≠ none := by
  induction l with
  | nil => intro acc h; simp at h
  | cons hd tl ih =>
    intro acc hfail
    obtain ⟨key, apiURL⟩ := hd
    rw [scrapeLoop, objectFromJSONURL_eta w.http w.decodeAPI apiURL]
    cases hobj : (objectFromJSONURL w.http w.decodeAPI apiURL).1 with
    | error e => simp
    | ok reference =>
      rcases hfail with ⟨pr, hmem, e, herr⟩
      have hprtl : pr ∈ tl := by
        rcases List.mem_cons.1 hmem with heq | h
        · rw [heq] at herr
          simp only at herr
          rw [hobj] at herr
          exact absurd herr (by simp)
        · exact h
      cases hfind : reference.entries.find? (fun entry => entry.name == "ping") with
      | none =>
        simpa [hfind] using ih acc ⟨pr, hprtl, e, herr⟩
      | some entry =>
        simpa [hfind] using
          ih (mapSet acc (serviceOf reference.baseURL)
            (reference.baseURL ++ entry.route)) ⟨pr, hprtl, e, herr⟩

/-- C2: resolution aborts with an error on any single failure: a manifest
fetch/decode failure is returned as the resolution's error with no map
( Go `nil` ), and when the manifest decodes but the fetch or decode of any
listed API description fails, the resolution reports an error rather than
a (partial) success. -/
theorem spec_C2 (w : World) (murl : String) :
    (∀ e, (objectFromJSONURL w.http w.decodeManifest murl).1 = .error e →
      ScrapePingURLs w murl = ⟨[], some e, [murl]⟩) ∧
    (∀ allAPIs, (objectFromJSONURL w.http w.decodeManifest murl).1 = .ok allAPIs →
      (∃ pr ∈ allAPIs, ∃ e, (objectFromJSONURL w.http w.decodeAPI pr.2).1 = .error e) →
      (ScrapePingURLs w murl).err ≠ none) := by
  constructor
  · intro e he
    rw [ScrapePingURLs, objectFromJSONURL_eta w.http w.decodeManifest murl, he]
  · intro allAPIs hok hfail
    rw [ScrapePingURLs, objectFromJSONURL_eta w.http w.decodeManifest murl, hok]
    simpa using scrapeLoop_err_of_fail w allAPIs [] hfail

/-- Witness for C2: in `wFailB` the manifest lists two services and the
second reference fetch fails with a transport error, so the whole
resolution reports an error. -/
theorem spec_C2_witness :
    (ScrapePingURLs wFailB manifestURL).err ≠ none :=
  (spec_C2 wFailB manifestURL).2 [("a", "urlA"), ("b", "urlB")] rfl
    ⟨("b", "urlB"), by decide, "transport error", rfl⟩

/-- Unfolding the walk at a service whose API description decodes and has a
"ping" entry: the derived binding is added and the walk continues. -/
lemma scrapeLoop_cons_ping (w : World) (key apiURL : String)
    (rest : List (String × String)) (acc : PingURLs) (ref : API) (entry : APIEntry)
    (happi : (objectFromJSONURL w.http w.decodeAPI apiURL).1 = .ok ref)
    (hping : ref.entries.find? (fun e => e.name == "ping") = some entry) :
    scrapeLoop w ((key, apiURL) :: rest) acc =
      ((scrapeLoop w rest
          (mapSet acc (serviceOf ref.baseURL) (ref.baseURL ++ entry.route))).1,
       (scrapeLoop w rest
          (mapSet acc (serviceOf ref.baseURL) (ref.baseURL ++ entry.route))).2.1,
       apiURL :: (scrapeLoop w rest
          (mapSet acc (serviceOf ref.baseURL) (ref.baseURL ++ entry.route))).2.2) := by
  rw [scrapeLoop, objectFromJSONURL_eta w.http w.decodeAPI apiURL, happi]
  simp [hping]

/-- Unfolding the walk at a service whose API description decodes but has no
"ping" entry: nothing is added and the walk continues. -/
lemma scrapeLoop_cons_noping (w : World) (key apiURL : String)
    (rest : List (String × String)) (acc : PingURLs) (ref : API)
    (happi : (objectFromJSONURL w.http w.decodeAPI apiURL).1 = .ok ref)
    (hping : ref.entries.find? (fun e => e.name == "ping") = none) :
    scrapeLoop w ((key, apiURL) :: rest) acc =
      ((scrapeLoop w rest acc).1, (scrapeLoop w rest acc).2.1,
       apiURL :: (scrapeLoop w rest acc).2.2) := by
  rw [scrapeLoop, objectFromJSONURL_eta w.http w.decodeAPI apiURL, happi]
  simp [hping]

/-- C3: for a manifest with one entry whose API description contains a
"ping" entry, the resulting map binds the name derived from the
description's base url (the hostname up to the first dot) to the base url
concatenated with the entry's route; the manifest's own key `key` does not
appear in the result. -/
theorem spec_C3 (w : World) (murl key apiURL : String) (ref : API) (entry : APIEntry)
    (hman : (objectFromJSONURL w.http w.decodeManifest murl).1 = .ok [(key, apiURL)])
    (happi : (objectFromJSONURL w.http w.decodeAPI apiURL).1 = .ok ref)
    (hping : ref.entries.find? (fun e => e.name == "ping") = some entry) :
    (ScrapePingURLs w murl).pingURLs =
      [(serviceOf ref.baseURL, ref.baseURL ++ entry.route)] ∧
    (ScrapePingURLs w murl).err = none ∧
    serviceOf ref.baseURL =
      String.mk ((hostnameOf ref.baseURL).data.takeWhile (fun x => x != '.')) := by
  have hcomp : ScrapePingURLs w murl =
      ⟨[(serviceOf ref.baseURL, ref.baseURL ++ entry.route)], none, [murl, apiURL]⟩ := by
    rw [ScrapePingURLs, objectFromJSONURL_eta w.http w.decodeManifest murl, hman]
    simp only
    rw [scrapeLoop_cons_ping w key apiURL [] [] ref entry happi hping]
    simp [scrapeLoop, mapSet]
  rw [hcomp]
  exact ⟨rfl, rfl, rfl⟩

/-- Witness for C3: the specification's worked example, with manifest key
"queue", reference base url `https://queue.taskcluster.net` and ping route
`/ping`, resolves to the map binding "queue" (derived from the hostname) to
`https://queue.taskcluster.net/ping`. -/
theorem spec_C3_witness :
    (ScrapePingURLs wSpec manifestURL).pingURLs =
      [("queue", "https://queue.taskcluster.net/ping")] ∧
    (ScrapePingURLs wSpec manifestURL).err = none := by
  have h := spec_C3 wSpec manifestURL "queue" "https://queue.example.com/ref"
    ⟨"https://queue.taskcluster.net", [⟨"ping", "/ping"⟩]⟩ ⟨"ping", "/ping"⟩
    rfl rfl (by decide)
  exact ⟨h.1.trans (by decide), h.2.1⟩

/-- A manifest scrape always fetches at least the manifest URL. -/
lemma ScrapePingURLs_trace_ne_nil (w : World) (murl : String) :
    (ScrapePingURLs w murl).trace ≠ [] := by
  rw [ScrapePingURLs, objectFromJSONURL_eta w.http w.decodeManifest murl]
  cases hobj : (objectFromJSONURL w.http w.decodeManifest murl).1 <;> simp

/-- A refresh always performs network activity (its trace is nonempty). -/
lemma RefreshCache_trace_ne_nil (w : World) (murl : String) (fs : CacheFS) (now : Int) :
    (RefreshCache w murl fs now).trace ≠ [] := by
  rw [RefreshCache]
  cases herr : (ScrapePingURLs w murl).err <;>
    simpa [herr] using ScrapePingURLs_trace_ne_nil w murl

/-- Counterexample to C5: with the cache file present but unreadable,
`NewPingURLs` returns the read error and performs no network activity at
all — it does not refresh, and the operation does fail. -/
theorem spec_C5_counterexample :
    (NewPingURLs wNoNet ⟨FileState.unreadable, true⟩ 0).err = some "read error" ∧
    (NewPingURLs wNoNet ⟨FileState.unreadable, true⟩ 0).trace = [] := by
  constructor <;> rfl

/-- C5 amended: a cache file that exists but cannot be read or decoded makes
`NewPingURLs` fail with that error, with no refresh and no network
activity; network activity happens exactly when the cache file is absent or
readable and stale. -/
theorem spec_C5_amended (w : World) (fs : CacheFS) (now : Int) :
    (∀ e, cacheExists fs = true → ReadCachedURLsFile fs = .error e →
      NewPingURLs w fs now = ⟨[], some e, fs, []⟩) ∧
    ((NewPingURLs w fs now).trace ≠ [] ↔
      (cacheExists fs = false ∨
        ∃ c, ReadCachedURLsFile fs = .ok c ∧ c.Expired now (hour * 24) = true)) := by
  obtain ⟨st, wr⟩ := fs
  cases st with
  | absent =>
    refine ⟨by intro e h; simp [cacheExists] at h, ?_⟩
    simp only [NewPingURLs, cacheExists, Bool.not_false, if_pos]
    simp [ReadCachedURLsFile, RefreshCache_trace_ne_nil, cacheExists]
  | unreadable =>
    refine ⟨?_, ?_⟩
    · intro e _ h
      simp only [ReadCachedURLsFile, Except.error.injEq] at h
      subst h
      rfl
    · simp [NewPingURLs, cacheExists, ReadCachedURLsFile]
  | corrupt =>
    refine ⟨?_, ?_⟩
    · intro e _ h
      simp only [ReadCachedURLsFile, Except.error.injEq] at h
      subst h
      rfl
    · simp [NewPingURLs, cacheExists, ReadCachedURLsFile]
  | stored c =>
    refine ⟨by intro e _ h; simp [ReadCachedURLsFile] at h, ?_⟩
    by_cases hexp : c.Expired now (hour * 24)
    · simp [NewPingURLs, cacheExists, ReadCachedURLsFile, hexp,
        RefreshCache_trace_ne_nil]
    · simp [NewPingURLs, cacheExists, ReadCachedURLsFile, hexp]

/-- Witness for C5 amended: a corrupt (present, undecodable) cache file
makes `NewPingURLs` return the unmarshal error with no network activity. -/
theorem spec_C5_witness :
    NewPingURLs wNoNet ⟨FileState.corrupt, true⟩ 0 =
      ⟨[], some "unmarshal error", ⟨FileState.corrupt, true⟩, []⟩ :=
  (spec_C5_amended wNoNet ⟨FileState.corrupt, true⟩ 0).1 "unmarshal error" rfl rfl

/-- An argument list with an entry outside the valid set fails validation. -/
lemma validateArgs_some_of_invalid (v : List String) (args : List String) :
    (∃ a ∈ args, v.contains a = false) →
    validateArgs v args = some "invalid argument(s) passed" := by
  induction args with
  | nil => simp
  | cons hd tl ih =>
    rintro ⟨a, hmem, hnc⟩
    rw [validateArgs]
    by_cases hc : v.contains hd = true
    · rw [if_pos hc]
      apply ih
      refine ⟨a, ?_, hnc⟩
      rcases List.mem_cons.1 hmem with heq | h
      · rw [heq, hc] at hnc
        cases hnc
      · exact h
    · rw [if_neg hc]

/-- Counterexample to C6: starting with no cache file, the invocation
`status bogus-service` does abort with the validation error, but only after
package `init` has already fetched the manifest and a reference over the
network — the invocation issues network calls, not zero. -/
theorem spec_C6_counterexample :
    (runStatusCommand wSpec ⟨FileState.absent, true⟩ 0 ["bogus-service"]).err =
      some "invalid argument(s) passed" ∧
    (runStatusCommand wSpec ⟨FileState.absent, true⟩ 0 ["bogus-service"]).trace =
      [manifestURL, "https://queue.example.com/ref"] := by
  constructor <;> rfl

/-- C6 amended: when startup succeeded, an argument list containing an
unknown service name makes the command abort with the validation error,
printing nothing and pinging nothing — the only network calls of the
invocation are the ones `init`'s `NewPingURLs` already made (none when the
cache was present, fresh and readable). -/
theorem spec_C6_amended (w : World) (fs : CacheFS) (now : Int) (args : List String)
    (hinit : (NewPingURLs w fs now).err = none)
    (hbad : ∃ a ∈ args, (keysOf (NewPingURLs w fs now).pingURLs).contains a = false) :
    runStatusCommand w fs now args =
      ⟨some "invalid argument(s) passed", [], (NewPingURLs w fs now).trace⟩ := by
  have hv := validateArgs_some_of_invalid (keysOf (NewPingURLs w fs now).pingURLs) args hbad
  simp [runStatusCommand, hinit, hv]

/-- Witness for C6 amended: with a fresh readable cache, `status
bogus-service` aborts with the validation error and the whole invocation
makes zero network calls. -/
theorem spec_C6_witness :
    runStatusCommand wSpec
      ⟨FileState.stored ⟨0, [("queue", "https://queue.taskcluster.net/ping")]⟩, true⟩
      0 ["bogus-service"] =
      ⟨some "invalid argument(s) passed", [], []⟩ :=
  spec_C6_amended wSpec
    ⟨FileState.stored ⟨0, [("queue", "https://queue.taskcluster.net/ping")]⟩, true⟩
    0 ["bogus-service"] rfl ⟨"bogus-service", by decide, rfl⟩

/-- C7: a ping answered with a non-200 HTTP status is a hard error — the
ping reports the error and prints nothing (it is never read as
`alive == false`) — and the status loop stops there: the remaining
requested services are not pinged (their URLs are not fetched). -/
theorem spec_C7 (w : World) (p : PingURLs) (service : String) (rest : List String)
    (code : Nat) (body : String)
    (hhttp : w.http (mapGet p service) = .ok (code, body))
    (hcode : code ≠ 200) :
    (∃ e, respbody w p service = ⟨some e, [], [mapGet p service]⟩) ∧
    statusLoop w p (service :: rest) = respbody w p service := by
  have hobj : objectFromJSONURL w.http w.decodePing (mapGet p service) =
      (.error ("Bad (!= 200) status code " ++ toString code ++ " from "
        ++ mapGet p service), [mapGet p service]) := by
    rw [objectFromJSONURL, hhttp]
    simp [hcode]
  have hresp : respbody w p service =
      ⟨some ("Bad (!= 200) status code " ++ toString code ++ " from "
        ++ mapGet p service), [], [mapGet p service]⟩ := by
    rw [respbody, hobj]
  refine ⟨⟨_, hresp⟩, ?_⟩
  rw [statusLoop, hresp]

/-- Witness for C7: the "index" ping answers HTTP 500; `respbody` reports an
error with no output, and the loop over ["index", "queue"] stops without
fetching the "queue" ping URL. -/
theorem spec_C7_witness :
    (∃ e, respbody wPing pingMap "index" =
      ⟨some e, [], ["https://index.taskcluster.net/ping"]⟩) ∧
    statusLoop wPing pingMap ["index", "queue"] = respbody wPing pingMap "index" :=
  spec_C7 wPing pingMap "index" ["queue"] 500 "oops" rfl (by decide)

/-- C8: a service whose API description decodes but contains no "ping"
entry contributes no binding and no error: the walk's resulting map and
error are exactly those of the walk over the remaining services, the only
effect being the reference fetch itself. -/
theorem spec_C8 (w : World) (key apiURL : String) (rest : List (String × String))
    (acc : PingURLs) (ref : API)
    (happi : (objectFromJSONURL w.http w.decodeAPI apiURL).1 = .ok ref)
    (hping : ref.entries.find? (fun e => e.name == "ping") = none) :
    scrapeLoop w ((key, apiURL) :: rest) acc =
      ((scrapeLoop w rest acc).1, (scrapeLoop w rest acc).2.1,
       apiURL :: (scrapeLoop w rest acc).2.2) :=
  scrapeLoop_cons_noping w key apiURL rest acc ref happi hping

/-- Witness for C8: with service "a" lacking a ping entry and service "b"
having one, the walk silently skips "a" and succeeds with only the binding
derived from "b". -/
theorem spec_C8_witness :
    scrapeLoop wNoPingFirst [("a", "urlA"), ("b", "urlB")] [] =
      ([("secrets", "https://secrets.taskcluster.net/ping")], none,
       ["urlA", "urlB"]) := by
  have h := spec_C8 wNoPingFirst "a" "urlA" [("b", "urlB")] []
    ⟨"https://auth.taskcluster.net", [⟨"createClient", "/clients"⟩]⟩ rfl (by decide)
  exact h.trans (by decide)

/-- C9: for a ping whose fetch and decode succeed, the command prints the
service name followed by an "Alive" line when the report says
`alive == true`, and prints nothing for that service (with no error) when
it says `alive == false`. -/
theorem spec_C9 (w : World) (p : PingURLs) (service : String) (r : PingResponse)
    (h : (objectFromJSONURL w.http w.decodePing (mapGet p service)).1 = .ok r) :
    respbody w p service =
      ⟨none,
       if r.alive then ["      " ++ service ++ "\n", "      Alive\n"] else [],
       [mapGet p service]⟩ := by
  rw [respbody, objectFromJSONURL_eta w.http w.decodePing (mapGet p service), h]
  by_cases ha : r.alive <;> simp [ha]

/-- Witness for C9: "queue" reports alive and prints its name and an Alive
line; "auth" reports not alive and prints nothing, with no error. -/
theorem spec_C9_witness :
    respbody wPing pingMap "queue" =
      ⟨none, ["      queue\n", "      Alive\n"],
       ["https://queue.taskcluster.net/ping"]⟩ ∧
    respbody wPing pingMap "auth" =
      ⟨none, [], ["https://auth.taskcluster.net/ping"]⟩ := by
  have h1 := spec_C9 wPing pingMap "queue" ⟨true, 12⟩ rfl
  have h2 := spec_C9 wPing pingMap "auth" ⟨false, 0⟩ rfl
  exact ⟨h1.trans (by decide), h2.trans (by decide)⟩

/-- C10: when scraping succeeds but the cache file cannot be written,
`RefreshCache` returns the freshly resolved map together with the non-nil
write error; `NewPingURLs` (here on an absent cache) propagates both, and
the whole invocation aborts at startup — `init` panics with that error and
nothing is printed — despite the complete endpoint map that was obtained. -/
theorem spec_C10 (w : World) (fs : CacheFS) (now : Int) (args : List String)
    (hscrape : (ScrapePingURLs w manifestURL).err = none)
    (hwr : fs.writable = false)
    (hab : fs.state = FileState.absent) :
    RefreshCache w manifestURL fs now =
      ⟨(ScrapePingURLs w manifestURL).pingURLs, some "write error", fs,
       (ScrapePingURLs w manifestURL).trace⟩ ∧
    NewPingURLs w fs now =
      ⟨(ScrapePingURLs w manifestURL).pingURLs, some "write error", fs,
       (ScrapePingURLs w manifestURL).trace⟩ ∧
    (runStatusCommand w fs now args).err = some "write error" ∧
    (runStatusCommand w fs now args).output = [] := by
  have h1 : RefreshCache w manifestURL fs now =
      ⟨(ScrapePingURLs w manifestURL).pingURLs, some "write error", fs,
       (ScrapePingURLs w manifestURL).trace⟩ := by
    rw [RefreshCache]
    simp [hscrape, PingURLs.Cache, hwr]
  have h2 : NewPingURLs w fs now =
      ⟨(ScrapePingURLs w manifestURL).pingURLs, some "write error", fs,
       (ScrapePingURLs w manifestURL).trace⟩ := by
    rw [NewPingURLs]
    simp [cacheExists, hab, h1]
  refine ⟨h1, h2, ?_, ?_⟩ <;> simp [runStatusCommand, h2]

/-- Witness for C10: resolution succeeds in `wSpec` but the cache location
is unwritable, so the invocation (with no arguments) aborts at startup with
the write error and prints nothing. -/
theorem spec_C10_witness :
    (runStatusCommand wSpec ⟨FileState.absent, false⟩ 0 []).err = some "write error" ∧
    (runStatusCommand wSpec ⟨FileState.absent, false⟩ 0 []).output = [] :=
  ⟨(spec_C10 wSpec ⟨FileState.absent, false⟩ 0 [] rfl rfl rfl).2.2.1,
   (spec_C10 wSpec ⟨FileState.absent, false⟩ 0 [] rfl rfl rfl).2.2.2⟩
